import Mathlib

/-!
# Verification of the chat client (`src/client/src/App.jsx`)

A shallow embedding of the React chat client.  The component state
(`useState` hooks plus the `wsRef` ref) becomes a Lean structure; every
handler (`authenticate`, `sendMessage`, `changeRoom`, the connection
`useEffect` body and its cleanup, the WebSocket `onmessage` handler) becomes
a pure state-transition function.  Outbound HTTP requests and `alert` calls
are recorded in trace fields of the state so that theorems can speak about
what the client sent and which validation errors it surfaced.
-/

namespace ChatClient

/-- A JSON value as it appears in the request bodies the client builds
(`axios.post(url, {...})`).  The client only ever puts strings or the
possibly-`null` `userId` into a body. -/
inductive JsonVal where
  | str (s : String)
  | null
deriving DecidableEq, Repr

/-- Body value for `user_id`: the stored `userId`, which may still be `null`. -/
def jsonOfUserId : Option String → JsonVal
  | none => JsonVal.null
  | some u => JsonVal.str u

/-- An HTTP request issued by the client: `axios.get(API_URL/auth)` or
`axios.post(API_URL ++ path, body)` with the body a list of key/value
pairs in source order. -/
inductive ClientRequest where
  | getAuth : ClientRequest
  | post : String → List (String × JsonVal) → ClientRequest
deriving DecidableEq, Repr

/-- Whether a request body contains the given key
(for `post`, keys of the object literal in the source). -/
def ClientRequest.hasBodyKey : ClientRequest → String → Bool
  | .getAuth, _ => false
  | .post _ body, k => body.any fun kv => kv.1 == k

/-- The response of `GET /auth`; the client reads `res.data.user_id`. -/
structure AuthResponse where
  user_id : String
deriving DecidableEq, Repr

/-- A chat message as parsed from a WebSocket frame
(`JSON.parse(event.data)`); the UI reads `message.user_id` and
`message.message`. -/
structure ChatMsg where
  user_id : String
  message : String
deriving DecidableEq, Repr

/-- One WebSocket created by `new WebSocket(WS_URL/chat/${userId}?room=${room})`.
`userId` and `room` are the two values interpolated into the URL; `isOpen`
records whether `close()` has been called; the three `has*` flags record
whether the corresponding handler is still attached (the code nulls them
out on teardown). -/
structure Socket where
  userId : String
  room : String
  isOpen : Bool
  hasOnmessage : Bool
  hasOnerror : Bool
  hasOnclose : Bool
deriving DecidableEq, Repr

/-- The WebSocket endpoint base (`config.WS_URL`). -/
def WS_URL : String := "ws://localhost:8000"

/-- The URL the socket was opened with: `WS_URL/chat/${userId}?room=${room}`. -/
def Socket.url (s : Socket) : String :=
  WS_URL ++ "/chat/" ++ s.userId ++ "?room=" ++ s.room

/-- Teardown of one socket: `ws.onmessage = null; ws.onerror = null; ws.onclose = null; ws.close()`. -/
def closeAndDetach (s : Socket) : Socket :=
  { s with isOpen := false, hasOnmessage := false,
           hasOnerror := false, hasOnclose := false }

/-- The full client state: the five `useState` hooks, the `wsRef` ref
(an index into `sockets`, the list of every socket created so far), and
the traces of issued requests and shown alerts. -/
structure ClientState where
  message : String
  messages : List ChatMsg
  userId : Option String
  room : String
  roomInput : String
  sockets : List Socket
  wsRef : Option Nat
  requests : List ClientRequest
  alerts : List String
deriving DecidableEq, Repr

/-- Initial hook values: `useState('')`, `useState([])`, `useState(null)`,
`useState('general')`, `useState('')`, `useRef(null)`. -/
def initialState : ClientState :=
  { message := "", messages := [], userId := none, room := "general",
    roomInput := "", sockets := [], wsRef := none, requests := [],
    alerts := [] }

/-- The request part of `authenticate`: it issues `axios.get(API_URL/auth)`. -/
def authRequest (s : ClientState) : ClientState :=
  { s with requests := s.requests ++ [ClientRequest.getAuth] }

/-- The `.then` continuation of `authenticate`:
`setUserId(res.data.user_id)`. -/
def authResolve (resp : AuthResponse) (s : ClientState) : ClientState :=
  { s with userId := some resp.user_id }

/-- The `sendMessage` handler: if the message is empty (`!message || message.length == 0`,
both of which mean the empty string) alert and return; otherwise issue
`axios.post(API_URL/send_message, {user_id: userId, message: message})`. -/
def sendMessage (s : ClientState) : ClientState :=
  if s.message = "" then
    { s with alerts := s.alerts ++ ["Message is empty"] }
  else
    { s with requests := s.requests ++
        [ClientRequest.post "/send_message"
          [("user_id", jsonOfUserId s.userId),
           ("message", JsonVal.str s.message)]] }

/-- The `.then` continuation of a successful `sendMessage` post:
`setMessage('')`. -/
def sendMessageResolve (s : ClientState) : ClientState :=
  { s with message := "" }

/-- The `changeRoom` handler: reject an empty input, reject an input equal to the
current room, otherwise `setRoom(roomInput)`.  No HTTP request is made. -/
def changeRoom (s : ClientState) : ClientState :=
  if s.roomInput = "" then
    { s with alerts := s.alerts ++ ["Room input is empty"] }
  else if s.roomInput = s.room then
    { s with alerts := s.alerts ++ ["Room input is the same as the current room"] }
  else
    { s with room := s.roomInput }

/-- Close-and-detach the socket at index `i` (no-op on an out-of-range
index, matching the `if (wsRef.current)` guard pattern). -/
def detachCloseAt (l : List Socket) (i : Nat) : List Socket :=
  match l.get? i with
  | some sock => l.set i (closeAndDetach sock)
  | none => l

/-- The body of the connection `useEffect`:
bail out while `userId` is null; clear the displayed messages; if a socket
is held in `wsRef`, null its handlers and close it; create a new socket
for the current `userId` and `room` with all handlers attached; store it
in `wsRef`. -/
def connectionEffect (s : ClientState) : ClientState :=
  match s.userId with
  | none => s
  | some uid =>
    let s1 : ClientState := { s with messages := [] }
    let s2 : ClientState :=
      match s1.wsRef with
      | some i => { s1 with sockets := detachCloseAt s1.sockets i }
      | none => s1
    let newSock : Socket :=
      { userId := uid, room := s2.room, isOpen := true,
        hasOnmessage := true, hasOnerror := true, hasOnclose := true }
    { s2 with sockets := s2.sockets ++ [newSock],
              wsRef := some s2.sockets.length }

/-- The cleanup function returned by the connection `useEffect`: if a
socket is held in `wsRef`, null its handlers, close it and clear the ref. -/
def effectCleanup (s : ClientState) : ClientState :=
  match s.wsRef with
  | some i => { s with sockets := detachCloseAt s.sockets i, wsRef := none }
  | none => s

/-- One React re-render cycle of the connection effect after `userId` or
`room` changed: the previous effect's cleanup runs, then the new body. -/
def effectCycle (s : ClientState) : ClientState :=
  connectionEffect (effectCleanup s)

/-- Delivery of one WebSocket frame on the socket with index `i`: the
`onmessage` handler (`setMessages(prev => [...prev, JSON.parse(event.data)])`)
runs only if that socket is still open with its handler attached. -/
def wsDeliver (i : Nat) (m : ChatMsg) (s : ClientState) : ClientState :=
  match s.sockets.get? i with
  | some sock =>
      if sock.isOpen && sock.hasOnmessage then
        { s with messages := s.messages ++ [m] }
      else s
  | none => s

/-- Typing into the message input: `setMessage(e.target.value)`. -/
def inputMessage (v : String) (s : ClientState) : ClientState :=
  { s with message := v }

/-- Typing into the room input: `setRoomInput(e.target.value)`. -/
def inputRoom (v : String) (s : ClientState) : ClientState :=
  { s with roomInput := v }

/-- The `disabled={!userId}` attribute on the message input. -/
def messageInputDisabled (s : ClientState) : Bool :=
  s.userId.isNone

/-- The `disabled={!userId}` attribute on the Send button. -/
def sendButtonDisabled (s : ClientState) : Bool :=
  s.userId.isNone

/-- A click on the Send button: a disabled button never fires `onClick`. -/
def clickSend (s : ClientState) : ClientState :=
  if sendButtonDisabled s then s else sendMessage s

/-- Every event the client can process, for trace-based theorems. -/
inductive ClientOp where
  | authReq : ClientOp
  | authResolveOp (resp : AuthResponse) : ClientOp
  | send : ClientOp
  | sendResolve : ClientOp
  | changeRoomClick : ClientOp
  | effectRun : ClientOp
  | cleanupRun : ClientOp
  | deliver (i : Nat) (m : ChatMsg) : ClientOp
  | inputMessageOp (v : String) : ClientOp
  | inputRoomOp (v : String) : ClientOp
deriving DecidableEq, Repr

/-- Apply one event. -/
def applyOp : ClientOp → ClientState → ClientState
  | .authReq, s => authRequest s
  | .authResolveOp resp, s => authResolve resp s
  | .send, s => sendMessage s
  | .sendResolve, s => sendMessageResolve s
  | .changeRoomClick, s => changeRoom s
  | .effectRun, s => connectionEffect s
  | .cleanupRun, s => effectCleanup s
  | .deliver i m, s => wsDeliver i m s
  | .inputMessageOp v, s => inputMessage v s
  | .inputRoomOp v, s => inputRoom v s

/-- Apply a list of events left to right. -/
def applyOps (ops : List ClientOp) (s : ClientState) : ClientState :=
  ops.foldl (fun st op => applyOp op st) s

/-- Is the event the resolution of an authentication response
(the only event that writes `userId`)? -/
def ClientOp.isAuthResolve : ClientOp → Bool
  | .authResolveOp _ => true
  | _ => false

/-- The socket the connection effect creates, with all handlers attached. -/
def freshSocket (uid room : String) : Socket :=
  { userId := uid, room := room, isOpen := true,
    hasOnmessage := true, hasOnerror := true, hasOnclose := true }

/-- The socket list after the effect body's defensive teardown of the
previously held socket. -/
def effectBase (s : ClientState) : List Socket :=
  match s.wsRef with
  | some i => detachCloseAt s.sockets i
  | none => s.sockets

/-- Only the socket currently held in `wsRef` may still be open. -/
def onlyRefOpen (s : ClientState) : Prop :=
  ∀ j sock, s.sockets.get? j = some sock → sock.isOpen = true → s.wsRef = some j

/-- The number of open sockets. -/
def openCount (s : ClientState) : Nat :=
  (s.sockets.filter fun sock => sock.isOpen).length

/-- The connection invariant: only the held socket is open, and at most
one socket is open. -/
def wsInv (s : ClientState) : Prop :=
  onlyRefOpen s ∧ openCount s ≤ 1

/-- Socket `i` is permanently torn down: it exists, it is closed with its
message handler detached, and it is no longer the held socket. -/
def deadAt (i : Nat) (s : ClientState) : Prop :=
  i < s.sockets.length ∧ s.wsRef ≠ some i ∧
  ∀ sock, s.sockets.get? i = some sock →
    sock.isOpen = false ∧ sock.hasOnmessage = false

/-- Before authentication nothing has been opened: no user identifier,
no socket, no held ref. -/
def preAuth (s : ClientState) : Prop :=
  s.userId = none ∧ s.sockets = [] ∧ s.wsRef = none

/-- The request names `uid` as its sender: a post carries
`("user_id", uid)` in its body; `GET /auth` names no sender. -/
def sentBy (uid : String) : ClientRequest → Prop
  | .getAuth => True
  | .post _ body => ("user_id", JsonVal.str uid) ∈ body

/-- After authentication as `uid`: the stored identifier is `uid`, every
socket ever created was opened for `uid`, and every request issued from
index `n` on names `uid` as its sender. -/
def postAuthInv (uid : String) (n : Nat) (s : ClientState) : Prop :=
  s.userId = some uid ∧
  (∀ sock ∈ s.sockets, sock.userId = uid) ∧
  (∀ k r, n ≤ k → s.requests.get? k = some r → sentBy uid r)

/-- A concrete state holding one open socket, used by witnesses. -/
def demoHeldState : ClientState :=
  { initialState with
      userId := some "u1", wsRef := some 0,
      sockets := [freshSocket "u1" "general"] }

/-- A concrete held-socket state with a pending valid room input,
used by witnesses. -/
def demoSwitchState : ClientState :=
  { initialState with
      userId := some "u1", wsRef := some 0,
      sockets := [freshSocket "u1" "general"], roomInput := "sports" }

/-! ## Helper lemmas -/

theorem detachCloseAt_length (l : List Socket) (i : Nat) :
    (detachCloseAt l i).length = l.length := by
  unfold detachCloseAt
  cases h : l.get? i <;> simp

theorem getq_concat_length {α : Type} (l : List α) (x : α) :
    (l ++ [x]).get? l.length = some x := by
  induction l with
  | nil => rfl
  | cons a t ih => simp [ih]

theorem connectionEffect_some (s : ClientState) (uid : String)
    (hu : s.userId = some uid) :
    connectionEffect s =
      { s with messages := [],
               sockets := effectBase s ++ [freshSocket uid s.room],
               wsRef := some (effectBase s).length } := by
  unfold connectionEffect
  rw [hu]
  cases h : s.wsRef <;> simp [effectBase, h, freshSocket]

theorem connectionEffect_none (s : ClientState) (hu : s.userId = none) :
    connectionEffect s = s := by
  unfold connectionEffect
  rw [hu]

theorem effectCleanup_wsRef_some (s : ClientState) (i : Nat)
    (h : s.wsRef = some i) :
    effectCleanup s =
      { s with sockets := detachCloseAt s.sockets i, wsRef := none } := by
  unfold effectCleanup
  rw [h]

theorem effectCleanup_wsRef_none (s : ClientState) (h : s.wsRef = none) :
    effectCleanup s = s := by
  unfold effectCleanup
  rw [h]

theorem effectCleanup_fields (s : ClientState) :
    (effectCleanup s).userId = s.userId ∧
    (effectCleanup s).room = s.room ∧
    (effectCleanup s).requests = s.requests ∧
    (effectCleanup s).wsRef = none ∨ effectCleanup s = s := by
  unfold effectCleanup
  cases h : s.wsRef
  · right; rfl
  · left; exact ⟨rfl, rfl, rfl, rfl⟩

theorem changeRoom_valid (s : ClientState) (h1 : s.roomInput ≠ "")
    (h2 : s.roomInput ≠ s.room) :
    changeRoom s = { s with room := s.roomInput } := by
  unfold changeRoom
  rw [if_neg h1, if_neg h2]

theorem sendMessage_empty_eq (s : ClientState) (h : s.message = "") :
    sendMessage s = { s with alerts := s.alerts ++ ["Message is empty"] } := by
  unfold sendMessage
  rw [if_pos h]

theorem sendMessage_nonempty_eq (s : ClientState) (h : s.message ≠ "") :
    sendMessage s = { s with requests := s.requests ++
      [ClientRequest.post "/send_message"
        [("user_id", jsonOfUserId s.userId),
         ("message", JsonVal.str s.message)]] } := by
  unfold sendMessage
  rw [if_neg h]

/-! ## Claims about validation and the send path -/

/-- C5: a publish attempt with an empty message body is rejected with the
client-visible alert "Message is empty" and issues no request; a non-empty
body always issues the `/send_message` post. -/
theorem sendValidation (s : ClientState) :
    (s.message = "" →
      (sendMessage s).alerts = s.alerts ++ ["Message is empty"] ∧
      (sendMessage s).requests = s.requests) ∧
    (s.message ≠ "" →
      (sendMessage s).alerts = s.alerts ∧
      (sendMessage s).requests = s.requests ++
        [ClientRequest.post "/send_message"
          [("user_id", jsonOfUserId s.userId),
           ("message", JsonVal.str s.message)]]) := by
  constructor
  · intro h
    simp [sendMessage, h]
  · intro h
    simp [sendMessage, h]

/-- Witness for `sendValidation` at two concrete states. -/
theorem sendValidation_witness :
    (sendMessage initialState).requests = [] ∧
    (sendMessage { initialState with message := "hi", userId := some "u1" }).requests =
      [ClientRequest.post "/send_message"
        [("user_id", JsonVal.str "u1"), ("message", JsonVal.str "hi")]] := by
  constructor
  · exact ((sendValidation initialState).1 rfl).2
  · have h := (sendValidation
      { initialState with message := "hi", userId := some "u1" }).2 (by decide)
    simpa [initialState, jsonOfUserId] using h.2

/-- C6: a room-change attempt with an empty target or a target equal to
the current room alerts and leaves the room unchanged; in every case the
resulting room is either the old room or exactly the requested one (the
change is never applied only in part). -/
theorem changeRoomValidation (s : ClientState) :
    (s.roomInput = "" →
      (changeRoom s).room = s.room ∧
      (changeRoom s).alerts = s.alerts ++ ["Room input is empty"]) ∧
    (s.roomInput ≠ "" → s.roomInput = s.room →
      (changeRoom s).room = s.room ∧
      (changeRoom s).alerts = s.alerts ++
        ["Room input is the same as the current room"]) ∧
    ((changeRoom s).room = s.room ∨ (changeRoom s).room = s.roomInput) := by
  refine ⟨?_, ?_, ?_⟩
  · intro h
    unfold changeRoom
    rw [if_pos h]
    exact ⟨rfl, rfl⟩
  · intro h1 h2
    unfold changeRoom
    rw [if_neg h1, if_pos h2]
    exact ⟨rfl, rfl⟩
  · by_cases h1 : s.roomInput = ""
    · left
      unfold changeRoom
      rw [if_pos h1]
    · by_cases h2 : s.roomInput = s.room
      · left
        unfold changeRoom
        rw [if_neg h1, if_pos h2]
      · right
        unfold changeRoom
        rw [if_neg h1, if_neg h2]

/-- Witness for `changeRoomValidation` at a concrete state. -/
theorem changeRoomValidation_witness :
    (changeRoom initialState).room = initialState.room ∧
    (changeRoom { initialState with roomInput := "general" }).room = "general" := by
  constructor
  · exact ((changeRoomValidation initialState).1 rfl).1
  · have h := ((changeRoomValidation
      { initialState with roomInput := "general" }).2.1 (by decide) rfl).1
    simpa [initialState] using h

/-- C1 counterexample: at a concrete authenticated state the publish
request the client issues is exactly
`post /send_message {user_id, message}` — its body has no room field,
so the request does not carry the target room name. -/
theorem publishRequestOmitsRoom :
    (sendMessage { initialState with userId := some "u1", message := "hello" }).requests =
      [ClientRequest.post "/send_message"
        [("user_id", JsonVal.str "u1"), ("message", JsonVal.str "hello")]] ∧
    (ClientRequest.post "/send_message"
        [("user_id", JsonVal.str "u1"),
         ("message", JsonVal.str "hello")]).hasBodyKey "room" = false := by
  constructor
  · rw [sendMessage_nonempty_eq _ (by decide)]
    rfl
  · rfl

/-- C1 amended: every publish request the client issues carries the
sender identifier (`user_id`) and the message body (`message`), and
nothing else — in particular no room field; the target room is not part
of the request body. -/
theorem publishRequestShape (s : ClientState) (h : s.message ≠ "") :
    (sendMessage s).requests = s.requests ++
      [ClientRequest.post "/send_message"
        [("user_id", jsonOfUserId s.userId),
         ("message", JsonVal.str s.message)]] ∧
    (ClientRequest.post "/send_message"
      [("user_id", jsonOfUserId s.userId),
       ("message", JsonVal.str s.message)]).hasBodyKey "user_id" = true ∧
    (ClientRequest.post "/send_message"
      [("user_id", jsonOfUserId s.userId),
       ("message", JsonVal.str s.message)]).hasBodyKey "message" = true ∧
    (ClientRequest.post "/send_message"
      [("user_id", jsonOfUserId s.userId),
       ("message", JsonVal.str s.message)]).hasBodyKey "room" = false := by
  refine ⟨?_, rfl, ?_, rfl⟩
  · rw [sendMessage_nonempty_eq s h]
  · simp [ClientRequest.hasBodyKey]

/-- Witness for `publishRequestShape` at a concrete state. -/
theorem publishRequestShape_witness :
    (sendMessage { initialState with userId := some "u2", message := "m" }).requests =
      [ClientRequest.post "/send_message"
        [("user_id", JsonVal.str "u2"), ("message", JsonVal.str "m")]] := by
  have h := (publishRequestShape
    { initialState with userId := some "u2", message := "m" } (by decide)).1
  simpa [initialState, jsonOfUserId] using h

/-- C2 counterexample: at a concrete state with a valid room input,
`changeRoom` switches the current room from "general" to "sports"
locally — the request trace stays empty, so no room-change request is
sent and no response supplies the new room. -/
theorem changeRoomSendsNoRequest :
    (changeRoom { initialState with userId := some "u1", roomInput := "sports" }).room =
      "sports" ∧
    initialState.room = "general" ∧
    (changeRoom { initialState with userId := some "u1", roomInput := "sports" }).requests =
      [] := by
  refine ⟨?_, rfl, ?_⟩
  · rw [changeRoom_valid _ (by decide) (by decide)]
  · rw [changeRoom_valid _ (by decide) (by decide)]
    rfl

/-- C2 amended: a valid room change is applied locally — `changeRoom`
sets the room state to the input and issues no request of any kind; the
new room takes effect when the connection effect re-runs and opens a new
push channel whose URL carries the new room as its query parameter. -/
theorem changeRoomAppliedLocally (s : ClientState) (uid : String)
    (h1 : s.roomInput ≠ "") (h2 : s.roomInput ≠ s.room)
    (hu : s.userId = some uid) :
    (changeRoom s).room = s.roomInput ∧
    (changeRoom s).requests = s.requests ∧
    (∃ j sock, (effectCycle (changeRoom s)).wsRef = some j ∧
      (effectCycle (changeRoom s)).sockets.get? j = some sock ∧
      sock.userId = uid ∧ sock.room = s.roomInput ∧ sock.isOpen = true) := by
  rw [changeRoom_valid s h1 h2]
  refine ⟨rfl, rfl, ?_⟩
  set t : ClientState := { s with room := s.roomInput } with ht
  have htu : (effectCleanup t).userId = some uid := by
    unfold effectCleanup
    cases h : t.wsRef <;> simp [ht, hu]
  have htr : (effectCleanup t).room = s.roomInput := by
    unfold effectCleanup
    cases h : t.wsRef <;> simp [ht]
  rw [effectCycle, connectionEffect_some (effectCleanup t) uid htu]
  refine ⟨(effectBase (effectCleanup t)).length, freshSocket uid s.roomInput,
    rfl, ?_, rfl, rfl, rfl⟩
  simp only [htr]
  exact getq_concat_length _ _

/-- Witness for `changeRoomAppliedLocally` at a concrete state. -/
theorem changeRoomAppliedLocally_witness :
    (changeRoom { initialState with userId := some "u1", roomInput := "x" }).room = "x" := by
  exact (changeRoomAppliedLocally
    { initialState with userId := some "u1", roomInput := "x" } "u1"
    (by decide) (by decide) rfl).1

/-- C7: whenever the connection effect opens a push channel it is opened
for the stored user identifier with the current room as its query
parameter — the URL is `WS_URL/chat/userId?room=room` — and a fresh
session starts in the default room "general". -/
theorem channelOpenedPerUserWithRoom (s : ClientState) (uid : String)
    (hu : s.userId = some uid) :
    (∃ j sock, (connectionEffect s).wsRef = some j ∧
      (connectionEffect s).sockets.get? j = some sock ∧
      sock.userId = uid ∧ sock.room = s.room ∧
      sock.url = WS_URL ++ "/chat/" ++ uid ++ "?room=" ++ s.room) ∧
    initialState.room = "general" := by
  refine ⟨?_, rfl⟩
  rw [connectionEffect_some s uid hu]
  exact ⟨(effectBase s).length, freshSocket uid s.room,
    rfl, getq_concat_length _ _, rfl, rfl, rfl⟩

/-- Witness for `channelOpenedPerUserWithRoom` at a concrete state. -/
theorem channelOpenedPerUserWithRoom_witness :
    initialState.room = "general" ∧
    (∃ j sock,
      (connectionEffect { initialState with userId := some "u9" }).wsRef = some j ∧
      (connectionEffect { initialState with userId := some "u9" }).sockets.get? j =
        some sock ∧
      sock.url = WS_URL ++ "/chat/" ++ "u9" ++ "?room=" ++ "general") := by
  have h := channelOpenedPerUserWithRoom { initialState with userId := some "u9" } "u9" rfl
  refine ⟨h.2, ?_⟩
  obtain ⟨j, sock, hj, hs, _, _, hurl⟩ := h.1
  exact ⟨j, sock, hj, hs, hurl⟩

/-- C9: while no user identifier has been obtained, the connection effect
does nothing (no push channel is opened), the message input and the Send
button are disabled, and a click on the disabled Send button does not
change the state (no message can be sent). -/
theorem nothingBeforeAuth (s : ClientState) (h : s.userId = none) :
    connectionEffect s = s ∧
    messageInputDisabled s = true ∧
    sendButtonDisabled s = true ∧
    clickSend s = s := by
  refine ⟨connectionEffect_none s h, ?_, ?_, ?_⟩
  · simp [messageInputDisabled, h]
  · simp [sendButtonDisabled, h]
  · unfold clickSend
    rw [if_pos]
    simp [sendButtonDisabled, h]

/-- Witness for `nothingBeforeAuth` at the initial state. -/
theorem nothingBeforeAuth_witness :
    connectionEffect initialState = initialState ∧
    sendButtonDisabled initialState = true := by
  have h := nothingBeforeAuth initialState rfl
  exact ⟨h.1, h.2.2.1⟩

/-- C10: a successful send clears only the message input: the user
identifier, current room, displayed messages, socket list, socket ref,
room input and alerts are all unchanged by the send operation and its
success continuation. -/
theorem sendClearsOnlyMessageInput (s : ClientState) (h : s.message ≠ "") :
    (sendMessageResolve (sendMessage s)).message = "" ∧
    (sendMessageResolve (sendMessage s)).userId = s.userId ∧
    (sendMessageResolve (sendMessage s)).room = s.room ∧
    (sendMessageResolve (sendMessage s)).messages = s.messages ∧
    (sendMessageResolve (sendMessage s)).sockets = s.sockets ∧
    (sendMessageResolve (sendMessage s)).wsRef = s.wsRef ∧
    (sendMessageResolve (sendMessage s)).roomInput = s.roomInput ∧
    (sendMessageResolve (sendMessage s)).alerts = s.alerts := by
  unfold sendMessage sendMessageResolve
  rw [if_neg h]
  exact ⟨rfl, rfl, rfl, rfl, rfl, rfl, rfl, rfl⟩

/-- Witness for `sendClearsOnlyMessageInput` at a concrete state. -/
theorem sendClearsOnlyMessageInput_witness :
    (sendMessageResolve (sendMessage
      { initialState with message := "hey", userId := some "u1", room := "general" })).room =
      "general" := by
  exact (sendClearsOnlyMessageInput
    { initialState with message := "hey", userId := some "u1", room := "general" }
    (by decide)).2.2.1

/-! ## List index helpers -/

theorem getq_some_lt {α : Type} (l : List α) (i : Nat) (a : α)
    (h : l.get? i = some a) : i < l.length := by
  induction l generalizing i with
  | nil => exact Option.noConfusion h
  | cons x t ih =>
    cases i with
    | zero => simp
    | succ n => exact Nat.succ_lt_succ (ih n h)

theorem getq_lt_some {α : Type} (l : List α) (i : Nat) (h : i < l.length) :
    ∃ a, l.get? i = some a := by
  induction l generalizing i with
  | nil => simp at h
  | cons x t ih =>
    cases i with
    | zero => exact ⟨x, rfl⟩
    | succ n => exact ih n (Nat.lt_of_succ_lt_succ h)

theorem getq_set_eq {α : Type} (l : List α) (i : Nat) (a : α)
    (h : i < l.length) : (l.set i a).get? i = some a := by
  induction l generalizing i with
  | nil => simp at h
  | cons x t ih =>
    cases i with
    | zero => rfl
    | succ n => exact ih n (Nat.lt_of_succ_lt_succ h)

theorem getq_set_ne {α : Type} (l : List α) (i j : Nat) (a : α)
    (h : i ≠ j) : (l.set i a).get? j = l.get? j := by
  induction l generalizing i j with
  | nil => simp
  | cons x t ih =>
    cases i with
    | zero =>
      cases j with
      | zero => exact absurd rfl h
      | succ m => rfl
    | succ n =>
      cases j with
      | zero => rfl
      | succ m => exact ih n m fun he => h (by rw [he])

theorem getq_append_lt {α : Type} (l l2 : List α) (j : Nat)
    (h : j < l.length) : (l ++ l2).get? j = l.get? j := by
  induction l generalizing j with
  | nil => simp at h
  | cons x t ih =>
    cases j with
    | zero => rfl
    | succ n => exact ih n (Nat.lt_of_succ_lt_succ h)

theorem getq_append_cases {α : Type} (l : List α) (x : α) (k : Nat) (r : α)
    (h : (l ++ [x]).get? k = some r) : l.get? k = some r ∨ r = x := by
  induction l generalizing k with
  | nil =>
    cases k with
    | zero =>
      right
      cases h
      rfl
    | succ n =>
      cases n <;> exact Option.noConfusion h
  | cons a t ih =>
    cases k with
    | zero => left; exact h
    | succ n =>
      rcases ih n h with h1 | h1
      · left; exact h1
      · right; exact h1

theorem getq_mem {α : Type} (l : List α) (i : Nat) (a : α)
    (h : l.get? i = some a) : a ∈ l := by
  induction l generalizing i with
  | nil => exact Option.noConfusion h
  | cons x t ih =>
    cases i with
    | zero =>
      have hx : x = a := Option.some.inj h
      rw [← hx]
      exact List.mem_cons_self x t
    | succ n => exact List.mem_cons_of_mem x (ih n h)

theorem mem_set_cases {α : Type} (l : List α) (i : Nat) (b a : α)
    (h : a ∈ l.set i b) : a ∈ l ∨ a = b := by
  induction l generalizing i with
  | nil => simp at h
  | cons x t ih =>
    cases i with
    | zero =>
      have h2 : a ∈ b :: t := h
      rcases List.mem_cons.mp h2 with h3 | h3
      · right; exact h3
      · left; exact List.mem_cons_of_mem x h3
    | succ n =>
      have h2 : a ∈ x :: t.set n b := h
      rcases List.mem_cons.mp h2 with h3 | h3
      · left
        rw [h3]
        exact List.mem_cons_self x t
      · rcases ih n h3 with h4 | h4
        · left; exact List.mem_cons_of_mem x h4
        · right; exact h4

theorem filter_eq_nil_of_getq {α : Type} (p : α → Bool) (l : List α)
    (h : ∀ j a, l.get? j = some a → p a = false) : l.filter p = [] := by
  induction l with
  | nil => rfl
  | cons x t ih =>
    have hx := h 0 x rfl
    simp only [List.filter_cons, hx, Bool.false_eq_true, if_false]
    exact ih fun j a hj => h (j + 1) a hj

/-! ## Frame lemmas for the state-machine events -/

theorem sendMessage_frame (s : ClientState) :
    (sendMessage s).sockets = s.sockets ∧ (sendMessage s).wsRef = s.wsRef ∧
    (sendMessage s).userId = s.userId ∧ (sendMessage s).room = s.room ∧
    (sendMessage s).messages = s.messages := by
  unfold sendMessage
  by_cases h : s.message = ""
  · rw [if_pos h]; exact ⟨rfl, rfl, rfl, rfl, rfl⟩
  · rw [if_neg h]; exact ⟨rfl, rfl, rfl, rfl, rfl⟩

theorem changeRoom_frame (s : ClientState) :
    (changeRoom s).sockets = s.sockets ∧ (changeRoom s).wsRef = s.wsRef ∧
    (changeRoom s).userId = s.userId ∧ (changeRoom s).requests = s.requests ∧
    (changeRoom s).messages = s.messages := by
  unfold changeRoom
  by_cases h1 : s.roomInput = ""
  · rw [if_pos h1]; exact ⟨rfl, rfl, rfl, rfl, rfl⟩
  · by_cases h2 : s.roomInput = s.room
    · rw [if_neg h1, if_pos h2]; exact ⟨rfl, rfl, rfl, rfl, rfl⟩
    · rw [if_neg h1, if_neg h2]; exact ⟨rfl, rfl, rfl, rfl, rfl⟩

theorem wsDeliver_frame (i : Nat) (m : ChatMsg) (s : ClientState) :
    (wsDeliver i m s).sockets = s.sockets ∧ (wsDeliver i m s).wsRef = s.wsRef ∧
    (wsDeliver i m s).userId = s.userId ∧
    (wsDeliver i m s).requests = s.requests := by
  unfold wsDeliver
  split <;>
    first
      | exact ⟨rfl, rfl, rfl, rfl⟩
      | (split <;> exact ⟨rfl, rfl, rfl, rfl⟩)

/-! ## The single-live-channel invariant (claim C3) -/

theorem detachCloseAt_all_closed (s : ClientState) (i : Nat)
    (hro : onlyRefOpen s) (hw : s.wsRef = some i) :
    ∀ j sock, (detachCloseAt s.sockets i).get? j = some sock →
      sock.isOpen = false := by
  intro j sock hj
  unfold detachCloseAt at hj
  cases hgi : s.sockets.get? i with
  | none =>
    rw [hgi] at hj
    cases ho : sock.isOpen with
    | false => rfl
    | true =>
      have h2 := hro j sock hj ho
      rw [hw] at h2
      have hij : i = j := Option.some.inj h2
      rw [← hij, hgi] at hj
      exact Option.noConfusion hj
  | some old =>
    rw [hgi] at hj
    by_cases hji : j = i
    · rw [hji, getq_set_eq _ _ _ (getq_some_lt _ _ _ hgi)] at hj
      rw [← Option.some.inj hj]
      rfl
    · rw [getq_set_ne _ _ _ _ (fun he => hji he.symm)] at hj
      cases ho : sock.isOpen with
      | false => rfl
      | true =>
        have h2 := hro j sock hj ho
        rw [hw] at h2
        exact absurd (Option.some.inj h2).symm hji

theorem effectBase_all_closed (s : ClientState) (hro : onlyRefOpen s) :
    ∀ j sock, (effectBase s).get? j = some sock → sock.isOpen = false := by
  unfold effectBase
  cases hw : s.wsRef with
  | none =>
    intro j sock hj
    cases ho : sock.isOpen with
    | false => rfl
    | true =>
      have h2 := hro j sock hj ho
      rw [hw] at h2
      exact Option.noConfusion h2
  | some i => exact detachCloseAt_all_closed s i hro hw

theorem wsInv_effect (s : ClientState) (h : wsInv s) :
    wsInv (connectionEffect s) := by
  cases hu : s.userId with
  | none =>
    rw [connectionEffect_none s hu]
    exact h
  | some uid =>
    rw [connectionEffect_some s uid hu]
    refine ⟨?_, ?_⟩
    · intro j sock hj hopen
      show some (effectBase s).length = some j
      have hj2 : (effectBase s ++ [freshSocket uid s.room]).get? j = some sock := hj
      by_cases hlt : j < (effectBase s).length
      · rw [getq_append_lt _ _ _ hlt] at hj2
        have hc := effectBase_all_closed s h.1 j sock hj2
        rw [hc] at hopen
        exact Bool.noConfusion hopen
      · have hlen := getq_some_lt _ _ _ hj2
        rw [List.length_append] at hlen
        have hj3 : j = (effectBase s).length := by
          simp at hlen
          omega
        rw [hj3]
    · show ((effectBase s ++ [freshSocket uid s.room]).filter
        fun sock => sock.isOpen).length ≤ 1
      rw [List.filter_append,
        filter_eq_nil_of_getq _ _ (fun j a hj => effectBase_all_closed s h.1 j a hj)]
      simp [freshSocket]

theorem wsInv_cleanup (s : ClientState) (h : wsInv s) :
    wsInv (effectCleanup s) := by
  cases hw : s.wsRef with
  | none =>
    rw [effectCleanup_wsRef_none s hw]
    exact h
  | some i =>
    rw [effectCleanup_wsRef_some s i hw]
    refine ⟨?_, ?_⟩
    · intro j sock hj hopen
      have hj2 : (detachCloseAt s.sockets i).get? j = some sock := hj
      have hc := detachCloseAt_all_closed s i h.1 hw j sock hj2
      rw [hc] at hopen
      exact Bool.noConfusion hopen
    · show ((detachCloseAt s.sockets i).filter fun sock => sock.isOpen).length ≤ 1
      rw [filter_eq_nil_of_getq _ _ (detachCloseAt_all_closed s i h.1 hw)]
      exact Nat.zero_le 1

theorem wsInv_of_frame (s t : ClientState) (hs : t.sockets = s.sockets)
    (hw : t.wsRef = s.wsRef) (h : wsInv s) : wsInv t := by
  refine ⟨?_, ?_⟩
  · intro j sock hj hopen
    rw [hs] at hj
    rw [hw]
    exact h.1 j sock hj hopen
  · show (t.sockets.filter fun sock => sock.isOpen).length ≤ 1
    rw [hs]
    exact h.2

theorem wsInv_step (op : ClientOp) (s : ClientState) (h : wsInv s) :
    wsInv (applyOp op s) := by
  cases op with
  | authReq => exact wsInv_of_frame s _ rfl rfl h
  | authResolveOp resp => exact wsInv_of_frame s _ rfl rfl h
  | send => exact wsInv_of_frame s _ (sendMessage_frame s).1 (sendMessage_frame s).2.1 h
  | sendResolve => exact wsInv_of_frame s _ rfl rfl h
  | changeRoomClick =>
    exact wsInv_of_frame s _ (changeRoom_frame s).1 (changeRoom_frame s).2.1 h
  | effectRun => exact wsInv_effect s h
  | cleanupRun => exact wsInv_cleanup s h
  | deliver i m =>
    exact wsInv_of_frame s _ (wsDeliver_frame i m s).1 (wsDeliver_frame i m s).2.1 h
  | inputMessageOp v => exact wsInv_of_frame s _ rfl rfl h
  | inputRoomOp v => exact wsInv_of_frame s _ rfl rfl h

theorem wsInv_run (ops : List ClientOp) (s : ClientState) (h : wsInv s) :
    wsInv (applyOps ops s) := by
  induction ops generalizing s with
  | nil => exact h
  | cons op t ih => exact ih (applyOp op s) (wsInv_step op s h)

theorem wsInv_initial : wsInv initialState := by
  refine ⟨?_, ?_⟩
  · intro j sock hj hopen
    exact Option.noConfusion hj
  · exact Nat.zero_le 1

/-- C3: at most one push channel is ever live — along every event
sequence from the initial state at most one socket is open — and whenever
the connection effect creates a new socket while one is held, the held
socket ends up closed with all handlers detached while the new open
socket is installed under a fresh index. -/
theorem atMostOneLiveChannel :
    (∀ ops : List ClientOp, openCount (applyOps ops initialState) ≤ 1) ∧
    (∀ s : ClientState, ∀ uid : String, ∀ i : Nat, ∀ sock : Socket,
      s.userId = some uid → s.wsRef = some i → s.sockets.get? i = some sock →
      (connectionEffect s).sockets.get? i = some (closeAndDetach sock) ∧
      (closeAndDetach sock).isOpen = false ∧
      (closeAndDetach sock).hasOnmessage = false ∧
      (closeAndDetach sock).hasOnerror = false ∧
      (closeAndDetach sock).hasOnclose = false ∧
      (connectionEffect s).wsRef = some s.sockets.length ∧
      i ≠ s.sockets.length ∧
      (connectionEffect s).sockets.get? s.sockets.length =
        some (freshSocket uid s.room)) := by
  constructor
  · intro ops
    exact (wsInv_run ops initialState wsInv_initial).2
  · intro s uid i sock hu hw hgi
    have hlt : i < s.sockets.length := getq_some_lt _ _ _ hgi
    have hbase : effectBase s = s.sockets.set i (closeAndDetach sock) := by
      unfold effectBase
      rw [hw]
      show detachCloseAt s.sockets i = s.sockets.set i (closeAndDetach sock)
      unfold detachCloseAt
      rw [hgi]
    have hblen : (effectBase s).length = s.sockets.length := by
      rw [hbase]
      simp
    rw [connectionEffect_some s uid hu]
    refine ⟨?_, rfl, rfl, rfl, rfl, ?_, ?_, ?_⟩
    · show (effectBase s ++ [freshSocket uid s.room]).get? i =
        some (closeAndDetach sock)
      rw [getq_append_lt _ _ _ (by rw [hblen]; exact hlt)]
      rw [hbase]
      exact getq_set_eq _ _ _ hlt
    · show some (effectBase s).length = some s.sockets.length
      rw [hblen]
    · omega
    · show (effectBase s ++ [freshSocket uid s.room]).get? s.sockets.length =
        some (freshSocket uid s.room)
      rw [← hblen]
      exact getq_concat_length _ _

/-- Witness for `atMostOneLiveChannel` on a concrete trace and a concrete
held-socket state. -/
theorem atMostOneLiveChannel_witness :
    openCount (applyOps [ClientOp.authResolveOp ⟨"u1"⟩, ClientOp.effectRun,
      ClientOp.effectRun] initialState) ≤ 1 ∧
    (connectionEffect demoHeldState).sockets.get? 0 =
      some (closeAndDetach (freshSocket "u1" "general")) := by
  constructor
  · exact atMostOneLiveChannel.1
      [ClientOp.authResolveOp ⟨"u1"⟩, ClientOp.effectRun, ClientOp.effectRun]
  · exact (atMostOneLiveChannel.2 demoHeldState "u1" 0 (freshSocket "u1" "general")
      rfl rfl rfl).1

/-! ## Permanent teardown of an old channel (claim C4) -/

theorem detachCloseAt_eq_set (l : List Socket) (i : Nat) (sock : Socket)
    (h : l.get? i = some sock) :
    detachCloseAt l i = l.set i (closeAndDetach sock) := by
  unfold detachCloseAt
  rw [h]

theorem detachCloseAt_getq_ne (l : List Socket) (k i : Nat) (h : k ≠ i) :
    (detachCloseAt l k).get? i = l.get? i := by
  unfold detachCloseAt
  cases hg : l.get? k with
  | none => rfl
  | some old => exact getq_set_ne _ _ _ _ h

theorem deadAt_of_frame (i : Nat) (s t : ClientState) (hs : t.sockets = s.sockets)
    (hw : t.wsRef = s.wsRef) (h : deadAt i s) : deadAt i t := by
  obtain ⟨hlen, href, hclosed⟩ := h
  refine ⟨?_, ?_, ?_⟩
  · show i < t.sockets.length
    rw [hs]
    exact hlen
  · rw [hw]
    exact href
  · intro sock hsock
    rw [hs] at hsock
    exact hclosed sock hsock

theorem deadAt_effect (i : Nat) (s : ClientState) (h : deadAt i s) :
    deadAt i (connectionEffect s) := by
  obtain ⟨hlen, href, hclosed⟩ := h
  cases hu : s.userId with
  | none =>
    rw [connectionEffect_none s hu]
    exact ⟨hlen, href, hclosed⟩
  | some uid =>
    rw [connectionEffect_some s uid hu]
    have hblen : (effectBase s).length = s.sockets.length := by
      unfold effectBase
      cases hw : s.wsRef with
      | none => rfl
      | some k => exact detachCloseAt_length _ _
    have hbget : (effectBase s).get? i = s.sockets.get? i := by
      unfold effectBase
      cases hw : s.wsRef with
      | none => rfl
      | some k =>
        have hk : k ≠ i := fun he => href (by rw [hw, he])
        exact detachCloseAt_getq_ne _ _ _ hk
    refine ⟨?_, ?_, ?_⟩
    · show i < (effectBase s ++ [freshSocket uid s.room]).length
      rw [List.length_append, hblen]
      have h9 : List.length [freshSocket uid s.room] = 1 := rfl
      omega
    · show some (effectBase s).length ≠ some i
      rw [hblen]
      intro he
      have h9 := Option.some.inj he
      omega
    · intro sock hsock
      have hs2 : (effectBase s ++ [freshSocket uid s.room]).get? i = some sock := hsock
      rw [getq_append_lt _ _ _ (by rw [hblen]; exact hlen), hbget] at hs2
      exact hclosed sock hs2

theorem deadAt_cleanup (i : Nat) (s : ClientState) (h : deadAt i s) :
    deadAt i (effectCleanup s) := by
  obtain ⟨hlen, href, hclosed⟩ := h
  cases hw : s.wsRef with
  | none =>
    rw [effectCleanup_wsRef_none s hw]
    exact ⟨hlen, href, hclosed⟩
  | some k =>
    rw [effectCleanup_wsRef_some s k hw]
    have hk : k ≠ i := fun he => href (by rw [hw, he])
    refine ⟨?_, ?_, ?_⟩
    · show i < (detachCloseAt s.sockets k).length
      rw [detachCloseAt_length]
      exact hlen
    · exact fun he => Option.noConfusion he
    · intro sock hsock
      have hs2 : (detachCloseAt s.sockets k).get? i = some sock := hsock
      rw [detachCloseAt_getq_ne _ _ _ hk] at hs2
      exact hclosed sock hs2

theorem deadAt_step (i : Nat) (op : ClientOp) (s : ClientState) (h : deadAt i s) :
    deadAt i (applyOp op s) := by
  cases op with
  | authReq => exact deadAt_of_frame i s _ rfl rfl h
  | authResolveOp resp => exact deadAt_of_frame i s _ rfl rfl h
  | send =>
    exact deadAt_of_frame i s _ (sendMessage_frame s).1 (sendMessage_frame s).2.1 h
  | sendResolve => exact deadAt_of_frame i s _ rfl rfl h
  | changeRoomClick =>
    exact deadAt_of_frame i s _ (changeRoom_frame s).1 (changeRoom_frame s).2.1 h
  | effectRun => exact deadAt_effect i s h
  | cleanupRun => exact deadAt_cleanup i s h
  | deliver j m =>
    exact deadAt_of_frame i s _ (wsDeliver_frame j m s).1 (wsDeliver_frame j m s).2.1 h
  | inputMessageOp v => exact deadAt_of_frame i s _ rfl rfl h
  | inputRoomOp v => exact deadAt_of_frame i s _ rfl rfl h

theorem deadAt_run (i : Nat) (ops : List ClientOp) (s : ClientState)
    (h : deadAt i s) : deadAt i (applyOps ops s) := by
  induction ops generalizing s with
  | nil => exact h
  | cons op tl ih => exact ih (applyOp op s) (deadAt_step i op s h)

theorem wsDeliver_dead (i : Nat) (m : ChatMsg) (s : ClientState)
    (h : deadAt i s) : wsDeliver i m s = s := by
  unfold wsDeliver
  cases hg : s.sockets.get? i with
  | none => rfl
  | some sock =>
    show (if (sock.isOpen && sock.hasOnmessage) = true then
        { s with messages := s.messages ++ [m] } else s) = s
    have hc : sock.isOpen = false := (h.2.2 sock hg).1
    have h9 : ¬((sock.isOpen && sock.hasOnmessage) = true) := by
      rw [hc]
      exact fun hx => Bool.noConfusion hx
    rw [if_neg h9]

/-- The effect cycle after a state change while a socket is held:
cleanup tears the held socket down, then the body installs a fresh one. -/
theorem effectCycle_held (s : ClientState) (uid : String) (i : Nat)
    (hu : s.userId = some uid) (hw : s.wsRef = some i) :
    effectCycle s =
      { s with messages := [],
               sockets := detachCloseAt s.sockets i ++ [freshSocket uid s.room],
               wsRef := some (detachCloseAt s.sockets i).length } := by
  unfold effectCycle
  rw [effectCleanup_wsRef_some s i hw]
  rw [connectionEffect_some
    { s with sockets := detachCloseAt s.sockets i, wsRef := none } uid hu]
  rfl

theorem wsDeliver_fresh (j : Nat) (m : ChatMsg) (s : ClientState)
    (uid room2 : String) (hj : s.sockets.get? j = some (freshSocket uid room2)) :
    (wsDeliver j m s).messages = s.messages ++ [m] := by
  unfold wsDeliver
  rw [hj]
  rfl

/-- C4: after a valid room switch completes (change-room click followed by
the connection effect cycle), the displayed message list is cleared; the
old channel is permanently torn down, so a frame arriving on it — now or
after any further event sequence — never changes the state; and the newly
installed channel delivers into the cleared list. -/
theorem roomSwitchNoStaleMessages (s : ClientState) (uid : String) (i : Nat)
    (hu : s.userId = some uid) (hw : s.wsRef = some i)
    (hi : i < s.sockets.length)
    (h1 : s.roomInput ≠ "") (h2 : s.roomInput ≠ s.room) :
    (effectCycle (changeRoom s)).messages = [] ∧
    (∀ ops : List ClientOp, ∀ m : ChatMsg,
      wsDeliver i m (applyOps ops (effectCycle (changeRoom s))) =
        applyOps ops (effectCycle (changeRoom s))) ∧
    (∃ j, j ≠ i ∧ (effectCycle (changeRoom s)).wsRef = some j ∧
      ∀ m : ChatMsg,
        (wsDeliver j m (effectCycle (changeRoom s))).messages = [m]) := by
  have hcr : changeRoom s = { s with room := s.roomInput } := changeRoom_valid s h1 h2
  have hcy : effectCycle (changeRoom s) =
      { s with room := s.roomInput, messages := [],
               sockets := detachCloseAt s.sockets i ++ [freshSocket uid s.roomInput],
               wsRef := some (detachCloseAt s.sockets i).length } := by
    rw [hcr]
    rw [effectCycle_held { s with room := s.roomInput } uid i hu hw]
  have hdlen : (detachCloseAt s.sockets i).length = s.sockets.length :=
    detachCloseAt_length _ _
  rw [hcy]
  refine ⟨rfl, ?_, ?_⟩
  · intro ops m
    apply wsDeliver_dead
    apply deadAt_run
    refine ⟨?_, ?_, ?_⟩
    · show i < (detachCloseAt s.sockets i ++ [freshSocket uid s.roomInput]).length
      rw [List.length_append, hdlen]
      have h9 : List.length [freshSocket uid s.roomInput] = 1 := rfl
      omega
    · show some (detachCloseAt s.sockets i).length ≠ some i
      rw [hdlen]
      intro he
      have h9 := Option.some.inj he
      omega
    · intro sock hsock
      obtain ⟨old, hold⟩ := getq_lt_some s.sockets i hi
      have hs2 : (detachCloseAt s.sockets i ++
          [freshSocket uid s.roomInput]).get? i = some sock := hsock
      rw [getq_append_lt _ _ _ (by rw [hdlen]; exact hi),
        detachCloseAt_eq_set s.sockets i old hold,
        getq_set_eq _ _ _ hi] at hs2
      rw [← Option.some.inj hs2]
      exact ⟨rfl, rfl⟩
  · refine ⟨(detachCloseAt s.sockets i).length, ?_, rfl, ?_⟩
    · rw [hdlen]
      omega
    · intro m
      rw [wsDeliver_fresh _ m _ uid s.roomInput (getq_concat_length _ _)]
      rfl

/-- Witness for `roomSwitchNoStaleMessages` at a concrete state. -/
theorem roomSwitchNoStaleMessages_witness :
    (effectCycle (changeRoom demoSwitchState)).messages = [] ∧
    wsDeliver 0 ⟨"u2", "stale"⟩ (effectCycle (changeRoom demoSwitchState)) =
      effectCycle (changeRoom demoSwitchState) := by
  have h := roomSwitchNoStaleMessages demoSwitchState "u1" 0 rfl rfl
    (by decide) (by decide) (by decide)
  exact ⟨h.1, h.2.1 [] ⟨"u2", "stale"⟩⟩

/-! ## Identity propagation (claim C8) -/

theorem effectBase_ref_some (s : ClientState) (i : Nat) (hw : s.wsRef = some i) :
    effectBase s = detachCloseAt s.sockets i := by
  unfold effectBase
  rw [hw]

theorem effectBase_ref_none (s : ClientState) (hw : s.wsRef = none) :
    effectBase s = s.sockets := by
  unfold effectBase
  rw [hw]

theorem detachCloseAt_getq_none (l : List Socket) (i : Nat)
    (h : l.get? i = none) : detachCloseAt l i = l := by
  unfold detachCloseAt
  rw [h]

/-- All sockets of a list keep their owner after a teardown-in-place. -/
theorem detachCloseAt_owner (l : List Socket) (k : Nat) (uid : String)
    (h : ∀ sock ∈ l, sock.userId = uid) :
    ∀ sock ∈ detachCloseAt l k, sock.userId = uid := by
  intro sock hsm
  cases hg : l.get? k with
  | none =>
    rw [detachCloseAt_getq_none _ _ hg] at hsm
    exact h sock hsm
  | some old =>
    rw [detachCloseAt_eq_set l k old hg] at hsm
    rcases mem_set_cases _ _ _ _ hsm with hc | hc
    · exact h sock hc
    · rw [hc]
      exact h old (getq_mem _ _ _ hg)

theorem preAuth_step (op : ClientOp) (s : ClientState)
    (hop : op.isAuthResolve = false) (h : preAuth s) : preAuth (applyOp op s) := by
  obtain ⟨hu, hs, hw⟩ := h
  cases op with
  | authReq => exact ⟨hu, hs, hw⟩
  | authResolveOp resp => exact Bool.noConfusion hop
  | send =>
    show preAuth (sendMessage s)
    refine ⟨?_, ?_, ?_⟩
    · rw [(sendMessage_frame s).2.2.1]; exact hu
    · rw [(sendMessage_frame s).1]; exact hs
    · rw [(sendMessage_frame s).2.1]; exact hw
  | sendResolve => exact ⟨hu, hs, hw⟩
  | changeRoomClick =>
    show preAuth (changeRoom s)
    refine ⟨?_, ?_, ?_⟩
    · rw [(changeRoom_frame s).2.2.1]; exact hu
    · rw [(changeRoom_frame s).1]; exact hs
    · rw [(changeRoom_frame s).2.1]; exact hw
  | effectRun =>
    show preAuth (connectionEffect s)
    rw [connectionEffect_none s hu]
    exact ⟨hu, hs, hw⟩
  | cleanupRun =>
    show preAuth (effectCleanup s)
    rw [effectCleanup_wsRef_none s hw]
    exact ⟨hu, hs, hw⟩
  | deliver i m =>
    show preAuth (wsDeliver i m s)
    refine ⟨?_, ?_, ?_⟩
    · rw [(wsDeliver_frame i m s).2.2.1]; exact hu
    · rw [(wsDeliver_frame i m s).1]; exact hs
    · rw [(wsDeliver_frame i m s).2.1]; exact hw
  | inputMessageOp v => exact ⟨hu, hs, hw⟩
  | inputRoomOp v => exact ⟨hu, hs, hw⟩

theorem preAuth_run (ops : List ClientOp) (s : ClientState)
    (hops : ∀ op ∈ ops, op.isAuthResolve = false) (h : preAuth s) :
    preAuth (applyOps ops s) := by
  induction ops generalizing s with
  | nil => exact h
  | cons op tl ih =>
    exact ih (applyOp op s)
      (fun o ho => hops o (List.mem_cons_of_mem op ho))
      (preAuth_step op s (hops op (List.mem_cons_self op tl)) h)

theorem postAuthInv_step (uid : String) (n : Nat) (op : ClientOp)
    (s : ClientState) (hop : op.isAuthResolve = false)
    (h : postAuthInv uid n s) : postAuthInv uid n (applyOp op s) := by
  obtain ⟨hu, hsock, hreq⟩ := h
  cases op with
  | authReq =>
    refine ⟨hu, hsock, ?_⟩
    intro k r hk hkr
    have hkr2 : (s.requests ++ [ClientRequest.getAuth]).get? k = some r := hkr
    rcases getq_append_cases _ _ _ _ hkr2 with hc | hc
    · exact hreq k r hk hc
    · rw [hc]
      exact trivial
  | authResolveOp resp => exact Bool.noConfusion hop
  | send =>
    show postAuthInv uid n (sendMessage s)
    unfold sendMessage
    by_cases hm : s.message = ""
    · rw [if_pos hm]
      exact ⟨hu, hsock, hreq⟩
    · rw [if_neg hm]
      refine ⟨hu, hsock, ?_⟩
      intro k r hk hkr
      have hkr2 : (s.requests ++ [ClientRequest.post "/send_message"
          [("user_id", jsonOfUserId s.userId),
           ("message", JsonVal.str s.message)]]).get? k = some r := hkr
      rcases getq_append_cases _ _ _ _ hkr2 with hc | hc
      · exact hreq k r hk hc
      · rw [hc]
        show ("user_id", JsonVal.str uid) ∈
          [("user_id", jsonOfUserId s.userId), ("message", JsonVal.str s.message)]
        rw [hu]
        exact List.mem_cons_self _ _
  | sendResolve => exact ⟨hu, hsock, hreq⟩
  | changeRoomClick =>
    show postAuthInv uid n (changeRoom s)
    refine ⟨?_, ?_, ?_⟩
    · rw [(changeRoom_frame s).2.2.1]; exact hu
    · intro sock hsm
      rw [(changeRoom_frame s).1] at hsm
      exact hsock sock hsm
    · intro k r hk hkr
      rw [(changeRoom_frame s).2.2.2.1] at hkr
      exact hreq k r hk hkr
  | effectRun =>
    show postAuthInv uid n (connectionEffect s)
    rw [connectionEffect_some s uid hu]
    refine ⟨hu, ?_, hreq⟩
    intro sock hsm
    have hsm2 : sock ∈ effectBase s ++ [freshSocket uid s.room] := hsm
    rcases List.mem_append.mp hsm2 with hc | hc
    · cases hw : s.wsRef with
      | none =>
        rw [effectBase_ref_none s hw] at hc
        exact hsock sock hc
      | some k =>
        rw [effectBase_ref_some s k hw] at hc
        exact detachCloseAt_owner s.sockets k uid hsock sock hc
    · rw [List.mem_singleton.mp hc]
      rfl
  | cleanupRun =>
    show postAuthInv uid n (effectCleanup s)
    cases hw : s.wsRef with
    | none =>
      rw [effectCleanup_wsRef_none s hw]
      exact ⟨hu, hsock, hreq⟩
    | some k =>
      rw [effectCleanup_wsRef_some s k hw]
      refine ⟨hu, ?_, hreq⟩
      intro sock hsm
      have hsm2 : sock ∈ detachCloseAt s.sockets k := hsm
      exact detachCloseAt_owner s.sockets k uid hsock sock hsm2
  | deliver i m =>
    show postAuthInv uid n (wsDeliver i m s)
    refine ⟨?_, ?_, ?_⟩
    · rw [(wsDeliver_frame i m s).2.2.1]; exact hu
    · intro sock hsm
      rw [(wsDeliver_frame i m s).1] at hsm
      exact hsock sock hsm
    · intro k r hk hkr
      rw [(wsDeliver_frame i m s).2.2.2] at hkr
      exact hreq k r hk hkr
  | inputMessageOp v => exact ⟨hu, hsock, hreq⟩
  | inputRoomOp v => exact ⟨hu, hsock, hreq⟩

theorem postAuthInv_run (uid : String) (n : Nat) (ops : List ClientOp)
    (s : ClientState) (hops : ∀ op ∈ ops, op.isAuthResolve = false)
    (h : postAuthInv uid n s) : postAuthInv uid n (applyOps ops s) := by
  induction ops generalizing s with
  | nil => exact h
  | cons op tl ih =>
    exact ih (applyOp op s)
      (fun o ho => hops o (List.mem_cons_of_mem op ho))
      (postAuthInv_step uid n op s (hops op (List.mem_cons_self op tl)) h)

/-- C8: identity issuance resolves to a response whose `user_id` the
client stores; afterwards (with no further authentication event) exactly
that value is the owner of every push channel it ever opens and the
sender named in every request it issues from that point on. -/
theorem identityStoredAndUsed (resp : AuthResponse) (ops1 ops2 : List ClientOp)
    (h1 : ∀ op ∈ ops1, op.isAuthResolve = false)
    (h2 : ∀ op ∈ ops2, op.isAuthResolve = false) :
    (authResolve resp (applyOps ops1 initialState)).userId = some resp.user_id ∧
    (applyOps ops2 (authResolve resp (applyOps ops1 initialState))).userId =
      some resp.user_id ∧
    (∀ sock ∈ (applyOps ops2 (authResolve resp
        (applyOps ops1 initialState))).sockets, sock.userId = resp.user_id) ∧
    (∀ k r, (applyOps ops1 initialState).requests.length ≤ k →
      (applyOps ops2 (authResolve resp
        (applyOps ops1 initialState))).requests.get? k = some r →
      sentBy resp.user_id r) := by
  have hpre : preAuth (applyOps ops1 initialState) :=
    preAuth_run ops1 initialState h1 ⟨rfl, rfl, rfl⟩
  have hbase : postAuthInv resp.user_id
      (applyOps ops1 initialState).requests.length
      (authResolve resp (applyOps ops1 initialState)) := by
    refine ⟨rfl, ?_, ?_⟩
    · intro sock hsm
      have hempty : (authResolve resp (applyOps ops1 initialState)).sockets = [] :=
        hpre.2.1
      rw [hempty] at hsm
      cases hsm
    · intro k r hk hkr
      have hkr2 : (applyOps ops1 initialState).requests.get? k = some r := hkr
      have hlt := getq_some_lt _ _ _ hkr2
      omega
  have hinv := postAuthInv_run resp.user_id
    (applyOps ops1 initialState).requests.length ops2 _ h2 hbase
  exact ⟨rfl, hinv.1, hinv.2.1, hinv.2.2⟩

/-- Witness for `identityStoredAndUsed` on a concrete trace. -/
theorem identityStoredAndUsed_witness :
    (applyOps [ClientOp.effectRun, ClientOp.inputMessageOp "hi", ClientOp.send]
      (authResolve ⟨"u1"⟩ (applyOps [] initialState))).userId = some "u1" ∧
    sentBy "u1" (ClientRequest.post "/send_message"
      [("user_id", JsonVal.str "u1"), ("message", JsonVal.str "hi")]) := by
  have h := identityStoredAndUsed ⟨"u1"⟩ []
    [ClientOp.effectRun, ClientOp.inputMessageOp "hi", ClientOp.send]
    (by intro op ho; cases ho) (by decide)
  refine ⟨h.2.1, ?_⟩
  exact h.2.2.2 0 _ (by decide) (by rfl)

end ChatClient
